import Mathlib

/-!
Verification of the Geospatial Sizing & Yield Computation Engine
(`src/main.py` of DreamspaceNYC/CustomSolarAPI) against its
natural-language specification.

The Python source is shallowly embedded below.  Floating-point values are
idealized as rationals (`ℚ`), Python `int` as `ℤ`.  Python `None` /
optional values become `Option`, and code that can raise an uncaught
exception is embedded as `Except Unit`.  The two third-party geometry
libraries (`shapely`, `pyproj`) are not part of the repository; the
pieces of their behaviour the engine relies on are embedded explicitly:
ring construction/closing for `shapely.geometry.shape` and the
shoelace-absolute-value area for `Polygon.area`, while the pyproj
coordinate `Transformer` (a point-wise map chosen from the polygon's
centroid, which is invariant under vertex reversal) is abstracted as a
function parameter `T : ℚ × ℚ → ℚ × ℚ`.
-/

namespace Solar

/-! ### Python numeric primitives -/

/-- Python `int(x)` on a float: truncation toward zero. -/
def pyTrunc (q : ℚ) : ℤ := if 0 ≤ q then ⌊q⌋ else ⌈q⌉

/-- Python `round(x)` on a float: round half to even (banker's rounding). -/
def pyRound (q : ℚ) : ℤ :=
  if q - ⌊q⌋ < 1/2 then ⌊q⌋
  else if (1 : ℚ)/2 < q - ⌊q⌋ then ⌊q⌋ + 1
  else if ⌊q⌋ % 2 = 0 then ⌊q⌋ else ⌊q⌋ + 1

/-- Python truthiness-based `x or d` for an optional float
(`req.panel_area_m2 or 1.95` and friends): `None` and `0.0` fall back. -/
def pyOrQ (o : Option ℚ) (d : ℚ) : ℚ :=
  match o with
  | some x => if x = 0 then d else x
  | none => d

/-- Python truthiness-based `x or d` for an optional int
(`req.panel_watts or 400`). -/
def pyOrZ (o : Option ℤ) (d : ℤ) : ℤ :=
  match o with
  | some x => if x = 0 then d else x
  | none => d

/-! ### Coordinate System Selector (`utm_crs_for_lon`, main.py lines 29-32) -/

/-- `int(math.floor((lon + 180) / 6) + 1)` — the UTM zone index. -/
def utmZone (lon : ℚ) : ℤ := ⌊(lon + 180) / 6⌋ + 1

/-- `utm_crs_for_lon`: EPSG code `32700 + zone` in the southern hemisphere
(`lat < 0`), else `32600 + zone` (main.py lines 29-32). -/
def utm_crs_for_lon (lon lat : ℚ) : ℤ :=
  if lat < 0 then 32700 + utmZone lon else 32600 + utmZone lon

/-! ### Polygon Area Calculator (`polygon_area_m2`, main.py lines 34-40)

`polygon_area_m2` re-projects every vertex with a pyproj `Transformer`
(abstracted as `T`) and returns the shapely/GEOS planar area of the
resulting ring, which is the absolute value of the shoelace signed area
divided by two. -/

/-- The 2-D cross product `x₁·y₂ − x₂·y₁` (one shoelace term). -/
def cross2 (p q : ℚ × ℚ) : ℚ := p.1 * q.2 - q.1 * p.2

/-- Sum of `cross2` over consecutive pairs of a vertex list (no closing
edge). -/
def pathSum : List (ℚ × ℚ) → ℚ
  | a :: b :: t => cross2 a b + pathSum (b :: t)
  | _ => 0

/-- The closing shoelace term: `cross2 (last l) x`, or `0` for `[]`. -/
def closeTerm (l : List (ℚ × ℚ)) (x : ℚ × ℚ) : ℚ :=
  match l.getLast? with
  | some p => cross2 p x
  | none => 0

/-- Twice the signed area of the ring through the vertex list (cyclic
shoelace sum). -/
def ringSum (l : List (ℚ × ℚ)) : ℚ :=
  match l.head? with
  | some h => pathSum l + closeTerm l h
  | none => 0

/-- The shapely/GEOS `Polygon.area` of a ring: `|signed area|`. -/
def shoelaceArea (l : List (ℚ × ℚ)) : ℚ := |ringSum l| / 2

/-- `polygon_area_m2` for an already-constructed ring, with the pyproj
transformer abstracted as `T` (main.py lines 34-40): project every vertex
and take the planar shoelace area. -/
def polygon_area_m2 (T : ℚ × ℚ → ℚ × ℚ) (ring : List (ℚ × ℚ)) : ℚ :=
  shoelaceArea (ring.map T)

/-- `shapely.geometry.shape` on the polygon's exterior ring: the ring is
closed by appending the first vertex when first ≠ last, and construction
raises (a generic `ValueError`, surfaced as an uncaught server error)
unless the closed ring has at least 4 coordinates. -/
def shapelyShape (l : List (ℚ × ℚ)) : Except Unit (List (ℚ × ℚ)) :=
  match l with
  | [] => .error ()
  | a :: t =>
      match (a :: t).getLast? with
      | some z =>
          let closed := if a = z then a :: t else (a :: t) ++ [a]
          if 4 ≤ closed.length then .ok closed else .error ()
      | none => .error ()

/-- The whole area path of `estimate`: construct the ring from the request
polygon (main.py line 128), then `polygon_area_m2` (main.py line 129). -/
def areaPipeline (T : ℚ × ℚ → ℚ × ℚ) (l : List (ℚ × ℚ)) : Except Unit ℚ :=
  (shapelyShape l).map (polygon_area_m2 T)

/-! ### Array Sizing Engine (main.py lines 138-154) -/

/-- `if total_area: max_panels = int((total_area * pack) / panel_area)
else: max_panels = None` (main.py lines 139-142).  Python truthiness:
`total_area` of `None` **or `0.0`** takes the `else` branch. -/
def maxPanelsOf (totalArea : Option ℚ) (pack parea : ℚ) : Option ℤ :=
  match totalArea with
  | some a => if a = 0 then none else some (pyTrunc (a * pack / parea))
  | none => none

/-- The three sizing outputs of `estimate` (main.py lines 138-154). -/
structure SizingOut where
  maxPanels : Option ℤ
  recPanels : ℤ
  systemKw : ℚ
  deriving DecidableEq, Repr

/-- The `else` arm of the user-capacity branch (main.py lines 148-154):
`if max_panels:` (truthy, so `None` and `0` both fall through to the fixed
3 kW default with `rec_panels = int(round(3000 / panel_watts))`). -/
def sizingElse (mp : Option ℤ) (watts : ℤ) : SizingOut :=
  match mp with
  | some n =>
      if n = 0 then ⟨mp, pyRound (3 * 1000 / (watts : ℚ)), 3⟩
      else ⟨mp, n, ((n * watts : ℤ) : ℚ) / 1000⟩
  | none => ⟨mp, pyRound (3 * 1000 / (watts : ℚ)), 3⟩

/-- The sizing block of `estimate` (main.py lines 138-154):
`if req.system_kw:` (truthy) takes the user capacity verbatim with
`rec_panels = int(round(system_kw * 1000 / panel_watts))`; otherwise
`sizingElse`. -/
def sizing (totalArea userKw : Option ℚ) (watts : ℤ) (parea pack : ℚ) :
    SizingOut :=
  let mp := maxPanelsOf totalArea pack parea
  match userKw with
  | some kw =>
      if kw = 0 then sizingElse mp watts
      else ⟨mp, pyRound (kw * 1000 / (watts : ℚ)), kw⟩
  | none => sizingElse mp watts

/-- `maxArrayPanelsCount` in the response payload (main.py line 167):
`max_panels if max_panels is not None else rec_panels`. -/
def maxArrayPanelsCount (s : SizingOut) : ℤ :=
  s.maxPanels.getD s.recPanels

/-! ### Request model (`EstimateRequest`, main.py lines 16-26) -/

/-- The pydantic request model, field for field (main.py lines 16-26).
Note that `lat` and `lon` are declared as bare floats with **no** `Field`
constraints. -/
structure EstimateRequest where
  lat : ℚ
  lon : ℚ
  polygon : Option (List (ℚ × ℚ))
  tilt_deg : Option ℚ
  azimuth_deg : Option ℚ
  system_kw : Option ℚ
  panel_watts : Option ℤ
  panel_area_m2 : Option ℚ
  packing_ratio : Option ℚ
  losses_percent : Option ℚ

/-- The pydantic `Field` validation of `EstimateRequest`: exactly the
declared bounds (`ge`/`le`/`gt`) of main.py lines 20-26.  `lat` and `lon`
carry no constraint whatsoever. -/
def requestValid (r : EstimateRequest) : Bool :=
  (match r.tilt_deg with
   | none => true
   | some t => decide (0 ≤ t) && decide (t ≤ 90)) &&
  (match r.azimuth_deg with
   | none => true
   | some x => decide (0 ≤ x) && decide (x ≤ 360)) &&
  (match r.system_kw with
   | none => true
   | some x => decide (0 < x)) &&
  (match r.panel_watts with
   | none => true
   | some w => decide (0 < w)) &&
  (match r.panel_area_m2 with
   | none => true
   | some x => decide (0 < x)) &&
  (match r.packing_ratio with
   | none => true
   | some x => decide (0 < x) && decide (x ≤ 1)) &&
  (match r.losses_percent with
   | none => true
   | some x => decide (0 ≤ x) && decide (x ≤ 40))

/-- Everything `estimate` does **before** the first external collaborator
call (main.py lines 117-154): resolve defaults, compute the polygon area
when a polygon is supplied, and run the sizing block.  The external
fetches (lines 157-158) happen strictly after this. -/
def estimatePhase1 (T : ℚ × ℚ → ℚ × ℚ) (r : EstimateRequest) :
    Except Unit (Option ℚ × SizingOut) := do
  let watts := pyOrZ r.panel_watts 400
  let parea := pyOrQ r.panel_area_m2 (195/100)
  let pack := pyOrQ r.packing_ratio (85/100)
  let totalArea : Option ℚ ←
    match r.polygon with
    | none => pure none
    | some ring => (shapelyShape ring).map (fun c => some (polygon_area_m2 T c))
  return (totalArea, sizing totalArea r.system_kw watts parea pack)

/-! ### Yield Aggregator, climatology side (`annual` inside
`fetch_power_irradiance`, main.py lines 62-74)

The NASA POWER response delivers, per channel, a mapping from 3-letter
month code to a JSON value.  JSON `null` becomes Python `None`, which is
modelled by the mapping simply not containing the key, exactly as
`monthly.get(m)` collapses both.  A remaining value is a number or a
string. -/

/-- A present (non-null) value in a climatology monthly mapping. -/
inductive PVal where
  | num (q : ℚ)
  | str (s : String)
  deriving DecidableEq, Repr

/-- The 12 month codes paired with the non-leap day counts
(main.py lines 67-69). -/
def monthsDays : List (String × ℕ) :=
  [("JAN", 31), ("FEB", 28), ("MAR", 31), ("APR", 30), ("MAY", 31),
   ("JUN", 30), ("JUL", 31), ("AUG", 31), ("SEP", 30), ("OCT", 31),
   ("NOV", 30), ("DEC", 31)]

/-- `monthly.get(m)`: dictionary lookup (first match in the assoc list;
a JSON-null or missing entry is `none`). -/
def lookupM (m : List (String × PVal)) (k : String) : Option PVal :=
  (m.find? (fun p => p.1 == k)).map (fun p => p.2)

/-- Python `v * days[i]`: on a number this scales it; on a string it is
string repetition — it does **not** raise, the failure comes later in
`sum`. -/
def pvalMulDays (v : PVal) (d : ℕ) : PVal :=
  match v with
  | .num q => .num (q * (d : ℚ))
  | .str s => .str (String.join (List.replicate d s))

/-- One step of Python `sum`: `acc + v` raises `TypeError` when `v` is a
string. -/
def pyAdd (acc : ℚ) (v : PVal) : Except Unit ℚ :=
  match v with
  | .num q => .ok (acc + q)
  | .str _ => .error ()

/-- Python `sum(vals)` over the collected list, starting from `0`. -/
def pySum (l : List PVal) : Except Unit ℚ := List.foldlM pyAdd 0 l

/-- `annual` (main.py lines 62-74): empty mapping → `None`; otherwise
collect `v * days[i]` for each month key that is present, and return
`float(sum(vals))` when the collection is non-empty, else `None`.
An uncaught `TypeError` from `sum` is the `.error` case. -/
def annual (monthly : List (String × PVal)) : Except Unit (Option ℚ) :=
  if monthly = [] then .ok none
  else
    let vals := monthsDays.filterMap
      (fun md => (lookupM monthly md.1).map (fun v => pvalMulDays v md.2))
    if vals = [] then .ok none
    else (pySum vals).map some

/-- The month-weighted numeric contributions of a mapping: used to state
what `annual` computes on well-formed (all-numeric) data. -/
def numVals (monthly : List (String × PVal)) : List ℚ :=
  monthsDays.filterMap
    (fun md =>
      match lookupM monthly md.1 with
      | some (.num q) => some (q * (md.2 : ℚ))
      | _ => none)

/-! ### Yield Aggregator, PV-simulation side (`pvgis_energy`,
main.py lines 96-113)

The PVGIS JSON payload is embedded as the inductive `J`.  Python `None`
and JSON `null` are both `J.jnull`. -/

/-- A JSON value of the PV-simulation response (booleans omitted: the
fields of interest are numbers, strings, arrays, objects or null). -/
inductive J where
  | num (q : ℚ)
  | str (s : String)
  | arr (l : List J)
  | obj (l : List (String × J))
  | jnull
  deriving Repr

/-- Python `d[k]` on a JSON value: succeeds only on an object containing
the key; anything else raises (`TypeError`/`KeyError`). -/
def jIndex (v : J) (k : String) : Except Unit J :=
  match v with
  | .obj l =>
      match (l.find? (fun p => p.1 == k)).map (fun p => p.2) with
      | some x => .ok x
      | none => .error ()
  | _ => .error ()

/-- Python `d.get(k, default)` on a JSON value: raises
(`AttributeError`) unless `d` is an object; a missing key yields the
default, a stored `null` yields `null` (not the default). -/
def pyGetD (v : J) (k : String) (d : J) : Except Unit J :=
  match v with
  | .obj l => .ok (((l.find? (fun p => p.1 == k)).map (fun p => p.2)).getD d)
  | _ => .error ()

/-- `isinstance(v, (int, float))`, returning the number. -/
def jNum (v : J) : Option ℚ :=
  match v with
  | .num q => some q
  | _ => none

/-- The zero-backfill of main.py line 111:
`float(v) if isinstance(v, (int, float)) else 0.0`. -/
def zfill (v : J) : ℚ := (jNum v).getD 0

/-- The primary monthly extraction (main.py line 98), inside `try`:
`data["outputs"]["monthly"]["fixed"]["E_d"][str(i)].get("E_m", None)` for
`i` in 1..12. -/
def primaryMonthly (data : J) : Except Unit (List J) :=
  match jIndex data "outputs" with
  | .error u => .error u
  | .ok o =>
    match jIndex o "monthly" with
    | .error u => .error u
    | .ok m =>
      match jIndex m "fixed" with
      | .error u => .error u
      | .ok f =>
        match jIndex f "E_d" with
        | .error u => .error u
        | .ok ed =>
            (List.range' 1 12).mapM (fun i =>
              match jIndex ed (toString i) with
              | .error u => .error u
              | .ok x => pyGetD x "E_m" .jnull)

/-- The fallback monthly extraction (main.py lines 100-103), **not**
exception-protected:
`data.get("outputs", {}).get("monthly", {}).get("fixed", [])`, then
`[m.get("E_m") for m in monthly_list]` when that is a list, else
`[None]*12`. -/
def fallbackMonthly (data : J) : Except Unit (List J) :=
  match pyGetD data "outputs" (.obj []) with
  | .error u => .error u
  | .ok o =>
    match pyGetD o "monthly" (.obj []) with
    | .error u => .error u
    | .ok m =>
      match pyGetD m "fixed" (.arr []) with
      | .error u => .error u
      | .ok ml =>
        match ml with
        | .arr l => l.mapM (fun mi => pyGetD mi "E_m" .jnull)
        | _ => .ok (List.replicate 12 .jnull)

/-- `try` the primary shape, on any exception use the fallback
(main.py lines 97-103). -/
def extractMonthly (data : J) : Except Unit (List J) :=
  match primaryMonthly data with
  | .ok l => .ok l
  | .error _ => fallbackMonthly data

/-- The authoritative-annual lookup (main.py line 106):
`data["outputs"]["totals"]["fixed"]["E_y"]`. -/
def eYLookup (data : J) : Except Unit J :=
  match jIndex data "outputs" with
  | .error u => .error u
  | .ok o =>
    match jIndex o "totals" with
    | .error u => .error u
    | .ok t =>
      match jIndex t "fixed" with
      | .error u => .error u
      | .ok f => jIndex f "E_y"

/-- The annual value computed by main.py lines 104-112 once the monthly
list `mr` has been extracted: the `E_y` lookup's value when it succeeds
(the `try`), else the sum of the numeric monthly entries; then kept
verbatim when numeric, else replaced by the sum of the backfilled
monthly list. -/
def annualOf (data : J) (mr : List J) : ℚ :=
  match jNum (match eYLookup data with
    | .ok v => v
    | .error _ => .num ((mr.filterMap jNum).sum)) with
  | some q => q
  | none => (mr.map zfill).sum

/-- `pvgis_energy` after the HTTP fetch (main.py lines 96-113): extract
the monthly series (primary shape, else fallback), zero-backfill it, and
pair it with the reconciled annual value. -/
def pvgis_energy (data : J) : Except Unit (List ℚ × ℚ) :=
  match extractMonthly data with
  | .error u => .error u
  | .ok mr => .ok (mr.map zfill, annualOf data mr)

/-! ### Shoelace lemmas -/

theorem pathSum_nil : pathSum [] = 0 := rfl

theorem pathSum_single (a : ℚ × ℚ) : pathSum [a] = 0 := rfl

theorem pathSum_cons_cons (a b : ℚ × ℚ) (t : List (ℚ × ℚ)) :
    pathSum (a :: b :: t) = cross2 a b + pathSum (b :: t) := rfl

theorem getLast?_cons_eq_getLastD {α : Type} (a : α) (l : List α) :
    (a :: l).getLast? = some (l.getLastD a) := by
  induction l generalizing a with
  | nil => rfl
  | cons b l ih => rw [List.getLast?_cons_cons, ih b, List.getLastD_cons]

theorem pathSum_snoc (l : List (ℚ × ℚ)) (x : ℚ × ℚ) :
    pathSum (l ++ [x]) = pathSum l + closeTerm l x := by
  induction l with
  | nil => simp [pathSum, closeTerm]
  | cons a t ih =>
    cases t with
    | nil => simp [pathSum, closeTerm, cross2, List.getLast?]
    | cons b t2 =>
      simp only [List.cons_append, pathSum_cons_cons]
      rw [show (b :: t2) ++ [x] = b :: (t2 ++ [x]) from rfl] at ih
      rw [ih]
      simp only [closeTerm, List.getLast?_cons_cons]
      ring

theorem pathSum_reverse (l : List (ℚ × ℚ)) : pathSum l.reverse = -pathSum l := by
  induction l with
  | nil => simp [pathSum]
  | cons a t ih =>
    rw [List.reverse_cons, pathSum_snoc, ih]
    cases t with
    | nil => simp [pathSum, closeTerm]
    | cons b t2 =>
      simp only [closeTerm, List.getLast?_reverse, List.head?_cons,
        pathSum_cons_cons, cross2]
      ring

theorem ringSum_nil : ringSum [] = 0 := rfl

theorem ringSum_cons (a : ℚ × ℚ) (t : List (ℚ × ℚ)) :
    ringSum (a :: t) = pathSum (a :: t) + closeTerm (a :: t) a := rfl

theorem ringSum_reverse (l : List (ℚ × ℚ)) : ringSum l.reverse = -ringSum l := by
  cases l with
  | nil => simp [ringSum]
  | cons a t =>
    rcases hrev : (a :: t).reverse with _ | ⟨b, s⟩
    · exact absurd (congrArg List.length hrev) (by simp)
    · have hb : (a :: t).getLast? = some b := by
        rw [← List.head?_reverse, hrev]; rfl
      have h4 : (b :: s).getLast? = some a := by
        rw [← hrev, List.getLast?_reverse]; rfl
      have h3 : pathSum (b :: s) = -pathSum (a :: t) := by
        rw [← hrev]; exact pathSum_reverse _
      rw [ringSum_cons, ringSum_cons, h3]
      simp only [closeTerm, hb, h4, cross2]
      ring

theorem ringSum_concat_head (a : ℚ × ℚ) (t : List (ℚ × ℚ)) :
    ringSum ((a :: t) ++ [a]) = ringSum (a :: t) := by
  have h1 : ringSum ((a :: t) ++ [a]) =
      pathSum ((a :: t) ++ [a]) + closeTerm ((a :: t) ++ [a]) a := rfl
  rw [h1, pathSum_snoc]
  have h2 : closeTerm ((a :: t) ++ [a]) a = 0 := by
    have hc : ((a :: t) ++ [a]).getLast? = some a := List.getLast?_concat _
    unfold closeTerm
    rw [hc]
    show cross2 a a = 0
    simp [cross2]
  rw [h2, ringSum_cons]
  ring

theorem shapelyShape_ok {l c : List (ℚ × ℚ)} (h : shapelyShape l = .ok c) :
    ∃ a t, l = a :: t ∧ 3 ≤ l.length ∧ (c = l ∨ c = l ++ [a]) := by
  cases l with
  | nil => simp [shapelyShape] at h
  | cons a t =>
    refine ⟨a, t, rfl, ?_⟩
    rw [shapelyShape, getLast?_cons_eq_getLastD] at h
    simp only at h
    by_cases haz : a = t.getLastD a
    · rw [if_pos haz] at h
      by_cases hlen : 4 ≤ (a :: t).length
      · rw [if_pos hlen] at h
        cases h
        refine ⟨?_, Or.inl rfl⟩
        simp only [List.length_cons] at hlen ⊢
        omega
      · rw [if_neg hlen] at h; cases h
    · rw [if_neg haz] at h
      by_cases hlen : 4 ≤ ((a :: t) ++ [a]).length
      · rw [if_pos hlen] at h
        cases h
        refine ⟨?_, Or.inr rfl⟩
        simp only [List.length_append, List.length_cons,
          List.length_nil] at hlen
        simp only [List.length_cons]
        omega
      · rw [if_neg hlen] at h; cases h

theorem shapelyShape_short {l : List (ℚ × ℚ)} (h : l.length < 3) :
    shapelyShape l = .error () := by
  cases hs : shapelyShape l with
  | error u => cases u; rfl
  | ok c =>
    obtain ⟨a, t, _, hlen, _⟩ := shapelyShape_ok hs
    omega

theorem shapelyShape_area {l c : List (ℚ × ℚ)} (T : ℚ × ℚ → ℚ × ℚ)
    (h : shapelyShape l = .ok c) :
    shoelaceArea (c.map T) = shoelaceArea (l.map T) := by
  obtain ⟨a, t, rfl, _, hc | hc⟩ := shapelyShape_ok h
  · rw [hc]
  · subst hc
    unfold shoelaceArea
    rw [show ((a :: t) ++ [a]).map T = (T a :: t.map T) ++ [T a] by simp,
      ringSum_concat_head, ← List.map_cons]

/-! ### Collinearity: a ring whose vertices take at most two distinct
values has shoelace area zero. -/

/-- Affine interpolation `a + t·d`, the parametrization of the line
through `a` with direction `d`. -/
def lerp2 (a d : ℚ × ℚ) (t : ℚ) : ℚ × ℚ := (a.1 + t * d.1, a.2 + t * d.2)

theorem cross2_lerp2 (a d : ℚ × ℚ) (s t : ℚ) :
    cross2 (lerp2 a d s) (lerp2 a d t) = (t - s) * cross2 a d := by
  simp only [cross2, lerp2]
  ring

theorem pathSum_map_lerp2 (a d : ℚ × ℚ) (s : ℚ) (ts : List ℚ) :
    pathSum ((s :: ts).map (lerp2 a d)) = (ts.getLastD s - s) * cross2 a d := by
  induction ts generalizing s with
  | nil => simp [pathSum]
  | cons t ts ih =>
    rw [List.map_cons, List.map_cons, pathSum_cons_cons, cross2_lerp2,
      ← List.map_cons, ih t, List.getLastD_cons]
    ring

theorem ringSum_map_lerp2 (a d : ℚ × ℚ) (ts : List ℚ) :
    ringSum (ts.map (lerp2 a d)) = 0 := by
  cases ts with
  | nil => simp [ringSum]
  | cons s ts =>
    have h2 : ((s :: ts).map (lerp2 a d)).getLast? =
        some (lerp2 a d (ts.getLastD s)) := by
      rw [List.getLast?_map, getLast?_cons_eq_getLastD]
      rfl
    have h1 : ringSum ((s :: ts).map (lerp2 a d)) =
        pathSum ((s :: ts).map (lerp2 a d)) +
          closeTerm ((s :: ts).map (lerp2 a d)) (lerp2 a d s) := by
      rw [List.map_cons, ringSum_cons, ← List.map_cons]
    rw [h1, pathSum_map_lerp2]
    simp only [closeTerm, h2, cross2_lerp2]
    ring

theorem exists_lerp2_of_two (a b p : ℚ × ℚ) (h : p = a ∨ p = b) :
    ∃ t, p = lerp2 a (b.1 - a.1, b.2 - a.2) t := by
  rcases h with rfl | rfl
  · exact ⟨0, by simp [lerp2]⟩
  · refine ⟨1, ?_⟩
    simp only [lerp2]
    rw [show a.1 + 1 * (p.1 - a.1) = p.1 by ring,
      show a.2 + 1 * (p.2 - a.2) = p.2 by ring]

theorem exists_map_of_pointwise {α β : Type} (f : α → β) :
    ∀ (l : List β), (∀ p ∈ l, ∃ t, p = f t) → ∃ ts : List α, l = ts.map f := by
  intro l
  induction l with
  | nil => exact fun _ => ⟨[], rfl⟩
  | cons p l ih =>
    intro h
    obtain ⟨t, ht⟩ := h p (List.mem_cons_self _ _)
    obtain ⟨ts, hts⟩ := ih (fun q hq => h q (List.mem_cons_of_mem _ hq))
    exact ⟨t :: ts, by rw [List.map_cons, ← ht, ← hts]⟩

theorem ringSum_two_point (a b : ℚ × ℚ) (l : List (ℚ × ℚ))
    (h : ∀ p ∈ l, p = a ∨ p = b) : ringSum l = 0 := by
  obtain ⟨ts, rfl⟩ := exists_map_of_pointwise (lerp2 a (b.1 - a.1, b.2 - a.2)) l
    (fun p hp => exists_lerp2_of_two a b p (h p hp))
  exact ringSum_map_lerp2 _ _ _

/-! ### Arithmetic and monadic helper lemmas -/

theorem pyTrunc_eq_floor {q : ℚ} (h : 0 ≤ q) : pyTrunc q = ⌊q⌋ := if_pos h

theorem polygon_area_m2_reverse (T : ℚ × ℚ → ℚ × ℚ) (l : List (ℚ × ℚ)) :
    polygon_area_m2 T l.reverse = polygon_area_m2 T l := by
  unfold polygon_area_m2 shoelaceArea
  rw [List.map_reverse, ringSum_reverse, abs_neg]

theorem mapM_ok_length {α β : Type} (f : α → Except Unit β) (xs : List α)
    (l : List β) (h : xs.mapM f = .ok l) : l.length = xs.length := by
  have loop : ∀ (ys : List α) (acc rl : List β),
      List.mapM.loop f ys acc = .ok rl → rl.length = ys.length + acc.length := by
    intro ys
    induction ys with
    | nil =>
      intro acc rl hl
      simp only [List.mapM.loop, pure, Except.pure] at hl
      cases hl
      simp
    | cons a as ih =>
      intro acc rl hl
      simp only [List.mapM.loop] at hl
      cases hfa : f a with
      | error e =>
        rw [hfa] at hl
        exact Except.noConfusion hl
      | ok b =>
        rw [hfa] at hl
        have hl2 : List.mapM.loop f as (b :: acc) = .ok rl := hl
        have := ih (b :: acc) rl hl2
        simp only [List.length_cons] at this ⊢
        omega
  have h0 : List.mapM.loop f xs [] = .ok l := h
  have := loop xs [] l h0
  simpa using this

theorem sum_map_zfill (l : List J) :
    (l.map zfill).sum = (l.filterMap jNum).sum := by
  induction l with
  | nil => rfl
  | cons v l ih =>
    cases v <;>
      simp [zfill, jNum, List.filterMap_cons, List.sum_cons, ih]

theorem pySum_map_num (qs : List ℚ) : pySum (qs.map PVal.num) = .ok qs.sum := by
  have loop : ∀ (rs : List ℚ) (acc : ℚ),
      List.foldlM pyAdd acc (rs.map PVal.num) = .ok (acc + rs.sum) := by
    intro rs
    induction rs with
    | nil => intro acc; simp [List.foldlM, pure, Except.pure]
    | cons q rs ih =>
      intro acc
      rw [List.map_cons]
      simp only [List.foldlM]
      have hstep : pyAdd acc (PVal.num q) = .ok (acc + q) := rfl
      rw [hstep]
      show List.foldlM pyAdd (acc + q) (rs.map PVal.num) = _
      rw [ih (acc + q), List.sum_cons]
      congr 1
      ring
  unfold pySum
  rw [loop qs 0, zero_add]

theorem lookupM_num (m : List (String × PVal))
    (h : ∀ p ∈ m, ∃ q, p.2 = PVal.num q) (k : String) (v : PVal)
    (hv : lookupM m k = some v) : ∃ q, v = PVal.num q := by
  unfold lookupM at hv
  cases hf : m.find? (fun p => p.1 == k) with
  | none => rw [hf] at hv; cases hv
  | some p =>
    rw [hf] at hv
    cases hv
    exact h p (List.mem_of_find?_eq_some hf)

theorem annual_numeric (m : List (String × PVal))
    (h : ∀ p ∈ m, ∃ q, p.2 = PVal.num q) :
    annual m =
      .ok (if m = [] ∨ numVals m = [] then none else some (numVals m).sum) := by
  have hvals : monthsDays.filterMap
      (fun md => (lookupM m md.1).map (fun v => pvalMulDays v md.2))
      = (numVals m).map PVal.num := by
    unfold numVals
    rw [List.map_filterMap]
    apply List.filterMap_congr
    intro md _
    cases hl : lookupM m md.1 with
    | none => rfl
    | some v =>
      obtain ⟨q, rfl⟩ := lookupM_num m h md.1 v hl
      rfl
  by_cases hm : m = []
  · simp [annual, hm]
  · unfold annual
    rw [if_neg hm, hvals]
    by_cases hnv : numVals m = []
    · rw [hnv]
      simp [hm, hnv]
    · rw [if_neg (by simpa using hnv)]
      rw [pySum_map_num]
      simp [hm, hnv, Except.map]



theorem pvgis_energy_of_extract (data : J) (mr : List J)
    (h : extractMonthly data = .ok mr) :
    pvgis_energy data = .ok (mr.map zfill, annualOf data mr) := by
  unfold pvgis_energy
  rw [h]

theorem primaryMonthly_length (data : J) (pl : List J)
    (h : primaryMonthly data = .ok pl) : pl.length = 12 := by
  unfold primaryMonthly at h
  split at h
  · exact Except.noConfusion h
  split at h
  · exact Except.noConfusion h
  split at h
  · exact Except.noConfusion h
  split at h
  · exact Except.noConfusion h
  have := mapM_ok_length _ (List.range' 1 12) pl h
  simpa using this

/-! ### Claim theorems -/

/-- C1 (counterexample): the claim says `max_panels` is present exactly
when a roof area is known.  For a computed area of exactly `0.0` the
area is known (`some 0`, not `None`), yet Python truthiness on
`if total_area:` makes `max_panels` `None`. -/
theorem C1_counterexample :
    some (0 : ℚ) ≠ (none : Option ℚ) ∧
    maxPanelsOf (some 0) (85/100) (195/100) = none := by
  constructor
  · simp
  · norm_num [maxPanelsOf]

/-- C1 (amended): `max_panels` is present iff a **nonzero** roof area is
known, and when present it equals `floor(area * packing_ratio /
panel_area_m2)`; it is absent when no polygon area was computed or when
the computed area is exactly 0. -/
theorem C1_max_panels (a pack parea : ℚ) (ha : 0 ≤ a) (hpk : 0 ≤ pack)
    (hpa : 0 < parea) :
    maxPanelsOf none pack parea = none ∧
    maxPanelsOf (some 0) pack parea = none ∧
    (a ≠ 0 → maxPanelsOf (some a) pack parea = some ⌊a * pack / parea⌋) := by
  refine ⟨rfl, by norm_num [maxPanelsOf], fun h0 => ?_⟩
  show (if a = 0 then none else some (pyTrunc (a * pack / parea))) =
    some ⌊a * pack / parea⌋
  rw [if_neg h0, pyTrunc_eq_floor (div_nonneg (mul_nonneg ha hpk) hpa.le)]

/-- C1 witness: the amended theorem at area 100 m², default packing ratio
and panel area. -/
theorem C1_max_panels_witness :
    maxPanelsOf (some 100) (85/100) (195/100) =
      some ⌊(100 : ℚ) * (85/100) / (195/100)⌋ :=
  (C1_max_panels 100 (85/100) (195/100) (by norm_num) (by norm_num)
    (by norm_num)).2.2 (by norm_num)

/-- C2 (confirmed): with a user capacity `kw > 0` the sizing takes
`system_kw = kw` and `recommended_panels = round(kw*1000/panel_watts)`
(Python banker's rounding) for any area, the computed `max_panels` is
carried through unchanged, and when present it is what
`maxArrayPanelsCount` reports (no clamping against the recommendation). -/
theorem C2_user_capacity (area : Option ℚ) (kw : ℚ) (hkw : 0 < kw)
    (watts : ℤ) (parea pack : ℚ) :
    (sizing area (some kw) watts parea pack).systemKw = kw ∧
    (sizing area (some kw) watts parea pack).recPanels =
      pyRound (kw * 1000 / (watts : ℚ)) ∧
    (sizing area (some kw) watts parea pack).maxPanels =
      maxPanelsOf area pack parea ∧
    (∀ n, maxPanelsOf area pack parea = some n →
      maxArrayPanelsCount (sizing area (some kw) watts parea pack) = n) := by
  have hne : kw ≠ 0 := ne_of_gt hkw
  refine ⟨by simp [sizing, hne], by simp [sizing, hne],
    by simp [sizing, hne], ?_⟩
  intro n hn
  simp [sizing, hne, maxArrayPanelsCount, hn]

/-- C2 witness: 5 kW user capacity over a 100 m² roof with defaults. -/
theorem C2_user_capacity_witness :
    (sizing (some 100) (some 5) 400 (195/100) (85/100)).systemKw = 5 ∧
    (sizing (some 100) (some 5) 400 (195/100) (85/100)).recPanels =
      pyRound ((5 : ℚ) * 1000 / ((400 : ℤ) : ℚ)) ∧
    (sizing (some 100) (some 5) 400 (195/100) (85/100)).maxPanels =
      maxPanelsOf (some 100) (85/100) (195/100) ∧
    (∀ n, maxPanelsOf (some 100) (85/100) (195/100) = some n →
      maxArrayPanelsCount
        (sizing (some 100) (some 5) 400 (195/100) (85/100)) = n) :=
  C2_user_capacity (some 100) 5 (by norm_num) 400 (195/100) (85/100)

/-- C3 (counterexample): the claim includes `max_panels = 0` in the
"recommended = max_panels" branch, but `if max_panels:` is falsy at `0`:
with area 1 m² (so `max_panels = 0`) the code returns the 3 kW default
and 8 recommended panels, not 0. -/
theorem C3_counterexample :
    maxPanelsOf (some 1) (85/100) (195/100) = some 0 ∧
    (sizing (some 1) none 400 (195/100) (85/100)).recPanels = 8 ∧
    (sizing (some 1) none 400 (195/100) (85/100)).systemKw = 3 ∧
    (8 : ℤ) ≠ 0 := by
  refine ⟨by norm_num [maxPanelsOf, pyTrunc], ?_, ?_, by norm_num⟩ <;>
    norm_num [sizing, sizingElse, maxPanelsOf, pyTrunc, pyRound]

/-- C3 (amended): without a user capacity, a present **nonzero**
`max_panels` gives `recommended = max_panels` and
`system_kw = max_panels * panel_watts / 1000`; when `max_panels` is
absent **or zero** the fixed default applies: `system_kw = 3.0`,
`recommended = round(3000 / panel_watts)`. -/
theorem C3_no_user_capacity (area : Option ℚ) (watts : ℤ)
    (parea pack : ℚ) :
    (sizing area none watts parea pack).maxPanels =
      maxPanelsOf area pack parea ∧
    (∀ n, maxPanelsOf area pack parea = some n → n ≠ 0 →
      (sizing area none watts parea pack).recPanels = n ∧
      (sizing area none watts parea pack).systemKw =
        ((n * watts : ℤ) : ℚ) / 1000) ∧
    ((maxPanelsOf area pack parea = none ∨
        maxPanelsOf area pack parea = some 0) →
      (sizing area none watts parea pack).systemKw = 3 ∧
      (sizing area none watts parea pack).recPanels =
        pyRound (3 * 1000 / (watts : ℚ))) := by
  refine ⟨?_, ?_, ?_⟩
  · cases hmp : maxPanelsOf area pack parea with
    | none => simp [sizing, sizingElse, hmp]
    | some n => by_cases hn : n = 0 <;> simp [sizing, sizingElse, hmp, hn]
  · intro n hn hn0
    constructor <;> simp [sizing, sizingElse, hn, hn0]
  · rintro (hmp | hmp) <;> constructor <;> simp [sizing, sizingElse, hmp]

/-- C3 witness: a 100 m² roof gives `max_panels = 43 ≠ 0`, so 43 panels
and `43 * 400 / 1000` kW. -/
theorem C3_no_user_capacity_witness :
    maxPanelsOf (some 100) (85/100) (195/100) = some 43 ∧
    (sizing (some 100) none 400 (195/100) (85/100)).recPanels = 43 ∧
    (sizing (some 100) none 400 (195/100) (85/100)).systemKw =
      ((43 * 400 : ℤ) : ℚ) / 1000 := by
  have hmp : maxPanelsOf (some 100) (85/100) (195/100) = some 43 := by
    norm_num [maxPanelsOf, pyTrunc]
  exact ⟨hmp, (C3_no_user_capacity (some 100) 400 (195/100)
    (85/100)).2.1 43 hmp (by norm_num)⟩

/-- C4 (counterexample): the claim says the zone index is in `[1, 60]`
for every longitude in `[-180, 180]`, but at `lon = 180` the formula
gives `floor(360/6) + 1 = 61`. -/
theorem C4_counterexample : utmZone 180 = 61 ∧ ¬utmZone 180 ≤ 60 := by
  norm_num [utmZone]

/-- C4 (amended): the zone index is in `[1, 60]` for longitudes in
`[-180, 180)`; at exactly `lon = 180` the formula yields 61.  The EPSG
code is a function of the zone and of the sign of the latitude only. -/
theorem C4_zone_bounds :
    (∀ lon : ℚ, -180 ≤ lon → lon < 180 →
      1 ≤ utmZone lon ∧ utmZone lon ≤ 60) ∧
    utmZone 180 = 61 ∧
    (∀ lon lat₁ lat₂ : ℚ, (lat₁ < 0 ↔ lat₂ < 0) →
      utm_crs_for_lon lon lat₁ = utm_crs_for_lon lon lat₂) := by
  refine ⟨?_, by norm_num [utmZone], ?_⟩
  · intro lon h1 h2
    have h6 : (0 : ℚ) < 6 := by norm_num
    have hlow : (0 : ℚ) ≤ (lon + 180) / 6 := div_nonneg (by linarith) h6.le
    have hup : (lon + 180) / 6 < 60 := by
      rw [div_lt_iff₀ h6]
      linarith
    have hf0 : 0 ≤ ⌊(lon + 180) / 6⌋ := Int.floor_nonneg.mpr hlow
    have hf1 : ⌊(lon + 180) / 6⌋ < 60 := Int.floor_lt.mpr (by exact_mod_cast hup)
    unfold utmZone
    omega
  · intro lon lat₁ lat₂ h
    unfold utm_crs_for_lon
    by_cases h1 : lat₁ < 0
    · rw [if_pos h1, if_pos (h.mp h1)]
    · rw [if_neg h1, if_neg (fun hc => h1 (h.mpr hc))]

/-- C4 witness: the amended bounds at `lon = 0`. -/
theorem C4_zone_bounds_witness : 1 ≤ utmZone 0 ∧ utmZone 0 ≤ 60 :=
  C4_zone_bounds.1 0 (by norm_num) (by norm_num)

/-- C5 (counterexample): a request with `lat = 95`, `lon = 200` (both out
of range) passes the pydantic validation and runs the whole pre-external
phase without any error — there is no `InvalidCoordinate` failure. -/
theorem C5_counterexample :
    requestValid ⟨95, 200, none, none, none, none, some 400, some (195/100),
      some (85/100), some 14⟩ = true ∧
    estimatePhase1 (fun p => p) ⟨95, 200, none, none, none, none, some 400,
      some (195/100), some (85/100), some 14⟩ = .ok (none, ⟨none, 8, 3⟩) := by
  constructor
  · norm_num [requestValid]
  · norm_num [estimatePhase1, pyOrZ, pyOrQ, sizing, sizingElse, maxPanelsOf,
      pyRound, bind, Except.bind, pure, Except.pure]

/-- C5 (amended): the request model imposes no constraint at all on the
coordinates, and the whole phase before the external calls neither reads
nor checks them: both validation and the pre-external computation are
invariant under arbitrary changes of `lat`/`lon`. -/
theorem C5_no_coordinate_validation (r : EstimateRequest) (la lo : ℚ)
    (T : ℚ × ℚ → ℚ × ℚ) :
    requestValid { r with lat := la, lon := lo } = requestValid r ∧
    estimatePhase1 T { r with lat := la, lon := lo } = estimatePhase1 T r :=
  ⟨rfl, rfl⟩

/-- C6 (counterexample): the ring `[(0,0), (0,0), (1,1)]` has only 2
distinct vertices, yet no `DegeneratePolygon` error exists: the area `0`
is computed and the whole pre-external phase succeeds. -/
theorem C6_counterexample :
    areaPipeline (fun p => p) [(2, 3), (2, 3), (5, 7)] = .ok 0 ∧
    estimatePhase1 (fun p => p) ⟨0, 0, some [(2, 3), (2, 3), (5, 7)], none,
      none, none, some 400, some (195/100), some (85/100), some 14⟩ =
      .ok (some 0, ⟨none, 8, 3⟩) := by
  constructor
  · norm_num [areaPipeline, shapelyShape, polygon_area_m2, shoelaceArea,
      ringSum, pathSum, closeTerm, cross2, Except.map, List.getLast?]
  · norm_num [estimatePhase1, pyOrZ, pyOrQ, sizing, sizingElse, maxPanelsOf,
      pyRound, bind, Except.bind, pure, Except.pure, shapelyShape,
      polygon_area_m2, shoelaceArea, ringSum, pathSum, closeTerm, cross2,
      Except.map, List.getLast?]

/-- C6 (amended): no `DegeneratePolygon` error exists, and deduplication
never happens.  Shapely's ring construction fails — with a generic
uncaught `ValueError`, a server error rather than a client-input error —
exactly when the closed ring has fewer than 4 coordinates: that is, when
the supplied ring has fewer than 3 coordinate pairs, or exactly 3 whose
first and last coincide (a pre-closed degenerate ring).  Every other
ring is accepted, and an accepted ring with fewer than 3 distinct
vertices yields computed area 0 with no error. -/
theorem C6_degenerate (l : List (ℚ × ℚ)) (T : ℚ × ℚ → ℚ × ℚ) :
    (shapelyShape l = .error () ↔
      l.length < 3 ∨ (l.length = 3 ∧ l.head? = l.getLast?)) ∧
    (shapelyShape l = .error () → areaPipeline T l = .error ()) ∧
    (∀ a b, (∀ p ∈ l, p = a ∨ p = b) → ∀ c, shapelyShape l = .ok c →
      polygon_area_m2 T c = 0) := by
  refine ⟨?_, ?_, ?_⟩
  · cases l with
    | nil => simp [shapelyShape]
    | cons a t =>
      rw [shapelyShape, getLast?_cons_eq_getLastD]
      simp only
      by_cases haz : a = t.getLastD a
      · rw [if_pos haz]
        by_cases hlen : (4 : ℕ) ≤ (a :: t).length
        · rw [if_pos hlen]
          simp only [List.length_cons] at hlen
          constructor
          · intro h
            exact Except.noConfusion h
          · intro h
            simp only [List.length_cons] at h
            rcases h with h | ⟨h, -⟩ <;> omega
        · rw [if_neg hlen]
          simp only [List.length_cons] at hlen
          constructor
          · intro _
            simp only [List.length_cons, List.head?_cons, Option.some.injEq]
            rcases Nat.lt_or_ge (t.length + 1) 3 with h3 | h3
            · exact Or.inl h3
            · exact Or.inr ⟨by omega, haz⟩
          · intro _
            rfl
      · rw [if_neg haz]
        have hlapp : ((a :: t) ++ [a]).length = t.length + 2 := by
          simp
        by_cases hlen : (4 : ℕ) ≤ ((a :: t) ++ [a]).length
        · rw [if_pos hlen]
          rw [hlapp] at hlen
          constructor
          · intro h
            exact Except.noConfusion h
          · intro h
            simp only [List.length_cons, List.head?_cons, Option.some.injEq] at h
            rcases h with h | ⟨-, hh⟩
            · omega
            · exact absurd hh haz
        · rw [if_neg hlen]
          rw [hlapp] at hlen
          constructor
          · intro _
            simp only [List.length_cons]
            exact Or.inl (by omega)
          · intro _
            rfl
  · intro h
    unfold areaPipeline
    rw [h]
    rfl
  · intro a b hab c hc
    obtain ⟨a0, t, hl, -, hcs⟩ := shapelyShape_ok hc
    have ha0 : a0 ∈ l := by
      rw [hl]
      exact List.mem_cons_self _ _
    have hmem : ∀ p ∈ c, p = a ∨ p = b := by
      intro p hp
      rcases hcs with hc1 | hc1
      · rw [hc1] at hp
        exact hab p hp
      · rw [hc1] at hp
        rcases List.mem_append.mp hp with hp2 | hp2
        · exact hab p hp2
        · rw [List.mem_singleton] at hp2
          rw [hp2]
          exact hab a0 ha0
    have hz : ringSum (c.map T) = 0 := by
      refine ringSum_two_point (T a) (T b) _ ?_
      intro p hp
      obtain ⟨q, hq, rfl⟩ := List.mem_map.mp hp
      rcases hmem q hq with rfl | rfl
      · exact Or.inl rfl
      · exact Or.inr rfl
    unfold polygon_area_m2 shoelaceArea
    rw [hz]
    norm_num

/-- C6 witness: the pre-closed 3-coordinate ring `[(2,3), (5,7), (2,3)]`
(first = last, 2 distinct vertices) is rejected, a 1-point ring is
rejected and aborts the area pipeline, and the accepted closed ring built
from `[(2,3), (2,3), (5,7)]` (2 distinct vertices) has area 0. -/
theorem C6_degenerate_witness :
    shapelyShape [((2 : ℚ), (3 : ℚ)), (5, 7), (2, 3)] = .error () ∧
    areaPipeline (fun p => p) [((5 : ℚ), (5 : ℚ))] = .error () ∧
    polygon_area_m2 (fun p => p) [(2, 3), (2, 3), (5, 7), (2, 3)] = 0 := by
  refine ⟨?_, ?_, ?_⟩
  · exact (C6_degenerate [((2 : ℚ), (3 : ℚ)), (5, 7), (2, 3)]
      (fun p => p)).1.mpr (Or.inr ⟨rfl, rfl⟩)
  · exact (C6_degenerate [((5 : ℚ), (5 : ℚ))] (fun p => p)).2.1
      ((C6_degenerate [((5 : ℚ), (5 : ℚ))] (fun p => p)).1.mpr
        (Or.inl (by norm_num)))
  · refine (C6_degenerate [(2, 3), (2, 3), (5, 7)] (fun p => p)).2.2
      (2, 3) (5, 7) ?_ _ ?_
    · intro p hp
      simp only [List.mem_cons, List.not_mem_nil, or_false] at hp
      tauto
    · norm_num [shapelyShape, List.getLast?]

/-- C7 (counterexample): a non-numeric monthly value is not treated as
absent — `"bad" * 31` is string repetition and the subsequent `sum`
raises an uncaught `TypeError`, while the claim requires the absent-month
behaviour (`.ok none`). -/
theorem C7_counterexample :
    annual [("JAN", PVal.str "bad")] = .error () ∧
    annual [("JAN", PVal.str "bad")] ≠ .ok none := by
  have h : annual [("JAN", PVal.str "bad")] = .error () := by
    simp [annual, lookupM, monthsDays, pvalMulDays, pySum, pyAdd,
      List.find?, Except.map, List.foldlM]
  refine ⟨h, ?_⟩
  rw [h]
  simp

/-- C7 (amended): on a mapping whose present values are all numeric,
`annual` multiplies each present month by its non-leap day count
(31,28,31,30,31,30,31,31,30,31,30,31) and sums exactly the present
months, returning absent when the mapping is empty or no month key is
present; non-numeric values, however, raise a type error instead of
being treated as absent. -/
theorem C7_annualize (m : List (String × PVal))
    (h : ∀ p ∈ m, ∃ q, p.2 = PVal.num q) :
    annual m = .ok (if m = [] ∨ numVals m = [] then none
      else some (numVals m).sum) :=
  annual_numeric m h

/-- C7 witness: a mapping with only `JAN: 5` yields `31 * 5 = 155`. -/
theorem C7_annualize_witness :
    annual [("JAN", PVal.num 5)] = .ok (some 155) := by
  have h := C7_annualize [("JAN", PVal.num 5)]
    (by
      intro p hp
      rw [List.mem_singleton] at hp
      exact ⟨5, by rw [hp]⟩)
  rw [h]
  have hnv : numVals [("JAN", PVal.num 5)] = [5 * ((31 : ℕ) : ℚ)] := rfl
  rw [hnv]
  norm_num

/-- C8 (counterexample): with the array-fallback payload shape the
monthly list has one entry per array element — here length 1, not 12 —
and a negative upstream number is kept verbatim, so the sequence is
neither of length 12 nor non-negative. -/
theorem C8_counterexample :
    pvgis_energy (J.obj [("outputs", J.obj [("monthly",
      J.obj [("fixed", J.arr [J.obj [("E_m", J.num (-5))]])])])]) =
      .ok ([-5], -5) ∧
    ¬(([-5] : List ℚ).length = 12) ∧ ¬((0 : ℚ) ≤ -5) := by
  refine ⟨?_, by norm_num, by norm_num⟩
  simp [pvgis_energy, annualOf, extractMonthly, primaryMonthly,
    fallbackMonthly, eYLookup, jIndex, pyGetD, jNum, zfill, List.find?,
    bind, Except.bind, pure, Except.pure, List.mapM, List.mapM.loop,
    List.range', Except.map]

/-- C8 (amended): whenever the monthly extraction succeeds, each monthly
entry is the upstream number verbatim (possibly negative) with absent or
non-numeric entries replaced by `0.0`; `annual_kwh` is the authoritative
`E_y` verbatim when present and numeric, otherwise the exact sum of the
zero-filled sequence; and the sequence has exactly 12 entries whenever
the **primary** payload shape parsed (the array fallback instead yields
one entry per array element). -/
theorem C8_reconcile (data : J) (mr : List J)
    (h : extractMonthly data = .ok mr) :
    (∀ q, eYLookup data = .ok (J.num q) →
      pvgis_energy data = .ok (mr.map zfill, q)) ∧
    ((∀ q : ℚ, eYLookup data ≠ .ok (J.num q)) →
      pvgis_energy data = .ok (mr.map zfill, (mr.map zfill).sum)) ∧
    (∀ pl, primaryMonthly data = .ok pl → mr.length = 12) := by
  refine ⟨?_, ?_, ?_⟩
  · intro q hq
    rw [pvgis_energy_of_extract data mr h]
    unfold annualOf
    rw [hq]
    rfl
  · intro hq
    rw [pvgis_energy_of_extract data mr h]
    unfold annualOf
    rcases hey : eYLookup data with u | v
    · rw [sum_map_zfill]
      rfl
    · cases v with
      | num q => exact absurd hey (hq q)
      | str s => rfl
      | arr l2 => rfl
      | obj l2 => rfl
      | jnull => rfl
  · intro pl hpl
    have hex : extractMonthly data = .ok pl := by
      unfold extractMonthly
      rw [hpl]
    have hmr : pl = mr := by
      rw [hex] at h
      exact Except.ok.inj h
    subst hmr
    exact primaryMonthly_length data pl hpl

/-- C8 witness: the empty-object payload extracts an empty monthly list,
has no usable `E_y`, and reconciles to the sum `0`. -/
theorem C8_reconcile_witness :
    extractMonthly (J.obj []) = .ok [] ∧
    pvgis_energy (J.obj []) = .ok ([], 0) := by
  have hex : extractMonthly (J.obj []) = .ok [] := by
    simp [extractMonthly, primaryMonthly, fallbackMonthly, jIndex, pyGetD,
      List.find?, pure, Except.pure, List.mapM, List.mapM.loop]
  refine ⟨hex, ?_⟩
  have h2 := (C8_reconcile (J.obj []) [] hex).2.1 (by
    intro q hq
    rw [show eYLookup (J.obj []) = .error () from by
      simp [eYLookup, jIndex, List.find?]] at hq
    exact Except.noConfusion hq)
  simpa using h2

/-- C9 (confirmed): the computed area (absolute shoelace area of the
projected ring) is non-negative for every ring and every transformer,
and it is invariant under reversing the vertex order — both for a raw
ring and through the shapely ring construction applied to the original
and the reversed input. -/
theorem C9_area_invariants :
    (∀ (T : ℚ × ℚ → ℚ × ℚ) (l : List (ℚ × ℚ)), 0 ≤ polygon_area_m2 T l) ∧
    (∀ (T : ℚ × ℚ → ℚ × ℚ) (l : List (ℚ × ℚ)),
      polygon_area_m2 T l.reverse = polygon_area_m2 T l) ∧
    (∀ (T : ℚ × ℚ → ℚ × ℚ) (l c c' : List (ℚ × ℚ)),
      shapelyShape l = .ok c → shapelyShape l.reverse = .ok c' →
      polygon_area_m2 T c' = polygon_area_m2 T c) := by
  refine ⟨?_, polygon_area_m2_reverse, ?_⟩
  · intro T l
    unfold polygon_area_m2 shoelaceArea
    positivity
  · intro T l c c' hc hc'
    have e1 := shapelyShape_area T hc
    have e2 := shapelyShape_area T hc'
    show shoelaceArea (c'.map T) = shoelaceArea (c.map T)
    rw [e2, e1]
    exact polygon_area_m2_reverse T l

/-- C9 witness: the unit right triangle, forwards and backwards, through
the ring construction. -/
theorem C9_area_invariants_witness :
    shapelyShape [((2 : ℚ), (3 : ℚ)), (5, 3), (2, 7)] =
      .ok [(2, 3), (5, 3), (2, 7), (2, 3)] ∧
    polygon_area_m2 (fun p => p) [(2, 7), (5, 3), (2, 3), (2, 7)] =
      polygon_area_m2 (fun p => p) [(2, 3), (5, 3), (2, 7), (2, 3)] := by
  have h1 : shapelyShape [((2 : ℚ), (3 : ℚ)), (5, 3), (2, 7)] =
      .ok [(2, 3), (5, 3), (2, 7), (2, 3)] := by
    norm_num [shapelyShape, List.getLast?]
  have h2 : shapelyShape ([((2 : ℚ), (3 : ℚ)), (5, 3), (2, 7)].reverse) =
      .ok [(2, 7), (5, 3), (2, 3), (2, 7)] := by
    norm_num [shapelyShape, List.getLast?]
  exact ⟨h1, C9_area_invariants.2.2 (fun p => p)
    [((2 : ℚ), (3 : ℚ)), (5, 3), (2, 7)] _ _ h1 h2⟩

/-- C10 (confirmed): an area of exactly 0 makes `max_panels` `None`; a
present `max_panels = 0` (like an absent one) routes the sizing to the
3 kW default, the same output the no-area case produces; and the engine
raises no error on such inputs — a collinear 3-vertex polygon runs the
whole pre-external phase successfully into the default sizing. -/
theorem C10_truthiness_fallback (a parea pack : ℚ) (watts : ℤ) :
    maxPanelsOf (some 0) pack parea = none ∧
    sizing (some 0) none watts parea pack =
      ⟨none, pyRound (3 * 1000 / (watts : ℚ)), 3⟩ ∧
    (maxPanelsOf (some a) pack parea = some 0 →
      sizing (some a) none watts parea pack =
        ⟨some 0, pyRound (3 * 1000 / (watts : ℚ)), 3⟩) ∧
    sizing none none watts parea pack =
      ⟨none, pyRound (3 * 1000 / (watts : ℚ)), 3⟩ ∧
    estimatePhase1 (fun p => p) ⟨0, 0, some [(2, 3), (3, 4), (4, 5)], none,
      none, none, some 400, some (195/100), some (85/100), some 14⟩ =
      .ok (some 0, ⟨none, pyRound (3 * 1000 / ((400 : ℤ) : ℚ)), 3⟩) := by
  refine ⟨by simp [maxPanelsOf], by simp [sizing, sizingElse, maxPanelsOf],
    ?_, by simp [sizing, sizingElse, maxPanelsOf], ?_⟩
  · intro h
    simp [sizing, sizingElse, h]
  · norm_num [estimatePhase1, pyOrZ, pyOrQ, sizing, sizingElse, maxPanelsOf,
      pyRound, bind, Except.bind, pure, Except.pure, shapelyShape,
      polygon_area_m2, shoelaceArea, ringSum, pathSum, closeTerm, cross2,
      Except.map, List.getLast?]

/-- C10 witness: area 1 m² gives `max_panels = some 0` and the sizing
falls back to the 3 kW default. -/
theorem C10_truthiness_fallback_witness :
    maxPanelsOf (some 1) (85/100) (195/100) = some 0 ∧
    sizing (some 1) none 400 (195/100) (85/100) =
      ⟨some 0, pyRound (3 * 1000 / ((400 : ℤ) : ℚ)), 3⟩ := by
  have hmp : maxPanelsOf (some 1) (85/100) (195/100) = some 0 := by
    norm_num [maxPanelsOf, pyTrunc]
  exact ⟨hmp, (C10_truthiness_fallback 1 (195/100) (85/100) 400).2.2.1 hmp⟩

end Solar
